import Mathlib

/-!
Shallow embedding of the instaui consumer-template CRUD admin UI
(src/src/components/ItemCrud.tsx and friends), together with proofs about
the URL-parameter encoding of list state, request sequencing, column
building, upload size checks, relation options, guarded deletion and
value rendering.

JavaScript values are modelled by `JSValue` (numbers as integers, which
covers every value the verified code paths distinguish), objects and
items as ordered association lists, and `URLSearchParams` as an ordered
list of key/value string pairs.
-/

namespace ConsumerTemplate

/-! ### JavaScript value model -/

inductive JSValue where
  | vnull
  | vundefined
  | vbool (b : Bool)
  | vnum (n : Int)
  | vstr (s : String)
  | vdate (iso : String)
  | vobj (fields : List (String × JSValue))

instance : Inhabited JSValue := ⟨.vundefined⟩

/-- JavaScript truthiness of a value (`Boolean(v)`). -/
def jsTruthy : JSValue → Bool
  | .vnull => false
  | .vundefined => false
  | .vbool b => b
  | .vnum n => n != 0
  | .vstr s => s != ""
  | .vdate _ => true
  | .vobj _ => true

/-- Truthiness of a `string | null | undefined` JavaScript value. -/
def optStrTruthy : Option String → Bool
  | none => false
  | some s => s != ""

/-- JavaScript `a || b` where `a` is a possibly-absent string. -/
def jsOrString (o : Option String) (b : String) : String :=
  match o with
  | none => b
  | some s => if s = "" then b else s

/-! ### Ordered association lists: JS objects and `URLSearchParams` -/

/-- JS property assignment `obj[k] = v` on an insertion-ordered object:
replace in place when the key exists, append otherwise. -/
def assocSet {α : Type} (l : List (String × α)) (k : String) (v : α) :
    List (String × α) :=
  if l.any (fun p => p.1 == k) then
    l.map (fun p => if p.1 == k then (k, v) else p)
  else l ++ [(k, v)]

/-- JS property read `obj[k]`, `none` when absent. -/
def assocGet {α : Type} (l : List (String × α)) (k : String) : Option α :=
  (l.find? (fun p => p.1 == k)).map Prod.snd

/-- An item returned by the REST API (`interface Item`). -/
abbrev Item := List (String × JSValue)

/-- `item[k]`, where a missing property reads as `undefined`. -/
def itemGet (it : Item) (k : String) : JSValue :=
  (assocGet it k).getD .vundefined

/-- `URLSearchParams` as an ordered list of key/value pairs.
`toString`/re-parsing round-trips keys and values exactly (they are
percent-encoded), so the pair list is the faithful observable state. -/
abbrev Params := List (String × String)

/-- `URLSearchParams.delete`: drop every pair with the key. -/
def paramsDelete (ps : Params) (k : String) : Params :=
  ps.filter (fun p => p.1 != k)

/-- `URLSearchParams.set`: replace the first pair with the key (dropping
later duplicates), append when the key is absent. -/
def paramsSet : Params → String → String → Params
  | [], k, v => [(k, v)]
  | p :: rest, k, v =>
    if p.1 = k then (k, v) :: paramsDelete rest k
    else p :: paramsSet rest k v

/-- `URLSearchParams.get`: value of the first pair with the key. -/
def paramsGet (ps : Params) (k : String) : Option String :=
  assocGet ps k

/-- `URLSearchParams.has`. -/
def paramsHas (ps : Params) (k : String) : Bool :=
  (paramsGet ps k).isSome

/-! ### JS string `split` / `Array.prototype.join` on a separator -/

/-- Worker for `String.prototype.split` with a one-character separator:
`acc` holds the current (reversed) chunk. -/
def splitSepAux (sep : Char) : List Char → List Char → List (List Char)
  | [], acc => [acc.reverse]
  | c :: cs, acc =>
    if c = sep then acc.reverse :: splitSepAux sep cs []
    else splitSepAux sep cs (c :: acc)

/-- JS `s.split(',')`. -/
def jsSplitComma (s : String) : List String :=
  (splitSepAux ',' s.data []).map (fun l => String.mk l)

/-- Worker for `Array.prototype.join(sep)` over already-stringified parts. -/
def joinSepAux (sep : List Char) : List (List Char) → List Char
  | [] => []
  | [x] => x
  | x :: y :: rest => x ++ sep ++ joinSepAux sep (y :: rest)

/-- JS `parts.join(sep)` for a list of strings. -/
def jsJoinSep (sep : String) (l : List String) : String :=
  String.mk (joinSepAux sep.data (l.map String.data))

/-- JS `s.endsWith(suffix)`. -/
def strEndsWith (s suffix : String) : Bool :=
  s.data.reverse.take suffix.data.length == suffix.data.reverse

/-- Drop the last `n` characters of a string (the effect of
`key.replace(/\[min\]$|\[max\]$/, '')` once the suffix is known). -/
def dropSuffixLen (s : String) (n : Nat) : String :=
  String.mk (s.data.take (s.data.length - n))

/-! ### JS `parseInt` and decimal printing of numbers -/

/-- Value of a character as a digit, as `parseInt` reads digits: the
ranges are `0`-`9` (codes 48-57), `a`-`z` (97-122) and `A`-`Z` (65-90)
for radices up to 36. -/
def charDigitVal (c : Char) : Option Nat :=
  if 48 ≤ c.toNat ∧ c.toNat ≤ 57 then some (c.toNat - 48)
  else if 97 ≤ c.toNat ∧ c.toNat ≤ 122 then some (c.toNat - 87)
  else if 65 ≤ c.toNat ∧ c.toNat ≤ 90 then some (c.toNat - 55)
  else none

/-- Longest prefix of digits valid in the radix (`parseInt` step 11). -/
def takeDigits (radix : Nat) : List Char → List Nat
  | [] => []
  | c :: cs =>
    match charDigitVal c with
    | some d => if d < radix then d :: takeDigits radix cs else []
    | none => []

/-- Numeric value of a digit list in a radix, most significant first. -/
def digitsVal (radix : Nat) (ds : List Nat) : Nat :=
  ds.foldl (fun a d => a * radix + d) 0

/-- Leading-whitespace trim performed by `parseInt`. -/
def stripWs : List Char → List Char
  | [] => []
  | c :: cs =>
    if c = ' ' ∨ c = '\t' ∨ c = '\n' ∨ c = '\r' then stripWs cs
    else c :: cs

/-- Optional sign at the front of the numeral (`parseInt` steps 4-6). -/
def splitSign (cs : List Char) : Int × List Char :=
  match cs with
  | [] => (1, [])
  | c :: rest =>
    if c = '-' then (-1, rest)
    else if c = '+' then (1, rest)
    else (1, c :: rest)

/-- Does the numeral start with `0x` / `0X`? -/
def hasHexPrefix : List Char → Bool
  | c0 :: c1 :: _ => c0 == '0' && (c1 == 'x' || c1 == 'X')
  | _ => false

/-- Effective radix and remaining digits: an unspecified (or zero) radix
defaults to 10 but switches to 16 on a `0x` prefix; radix 16 also strips
the prefix (`parseInt` steps 8-10). -/
def effRadixAndDigits (radix : Option Nat) (cs : List Char) : Nat × List Char :=
  match radix with
  | none => if hasHexPrefix cs then (16, cs.drop 2) else (10, cs)
  | some 0 => if hasHexPrefix cs then (16, cs.drop 2) else (10, cs)
  | some 16 => if hasHexPrefix cs then (16, cs.drop 2) else (16, cs)
  | some r => (r, cs)

/-- JS `parseInt(s, radix?)`; `none` is `NaN`. -/
def jsParseInt (radix : Option Nat) (s : String) : Option Int :=
  let t := stripWs s.data
  let sr := splitSign t
  let rd := effRadixAndDigits radix sr.2
  if rd.1 < 2 ∨ 36 < rd.1 then none
  else
    let ds := takeDigits rd.1 rd.2
    if ds = [] then none
    else some (sr.1 * (digitsVal rd.1 ds : Int))

/-- Fuel-indexed decimal printer; `fuel ≥ n` makes it total on `n`. -/
def natToDecimalAux : Nat → Nat → List Char
  | _, 0 => []
  | 0, _ + 1 => []
  | fuel + 1, n + 1 =>
    natToDecimalAux fuel ((n + 1) / 10) ++ [Nat.digitChar ((n + 1) % 10)]

/-- Decimal numeral of a natural number, as JS `String(n)` /
`n.toString()` produce for a nonnegative integer. -/
def natToDecimal (n : Nat) : String :=
  if n = 0 then "0" else String.mk (natToDecimalAux n n)

/-- Is the character a decimal digit (`0`-`9`)? -/
def isDecDigit (c : Char) : Bool :=
  decide (48 ≤ c.toNat) && decide (c.toNat ≤ 57)

/-- A numeral whose digits (after whitespace and sign) do not start with
`0x` / `0X`, so radix-unspecified `parseInt` reads it in base 10. -/
def hexPrefixFree (s : String) : Bool :=
  !(hasHexPrefix (splitSign (stripWs s.data)).2)

/-- Decimal numeral of an integer (JS `String(n)`). -/
def intToDecimal (n : Int) : String :=
  if n < 0 then "-" ++ natToDecimal n.natAbs else natToDecimal n.natAbs

/-- JS `String(v)` coercion for the primitive values the UI stringifies. -/
def jsToStringV : JSValue → String
  | .vnull => "null"
  | .vundefined => "undefined"
  | .vbool b => if b then "true" else "false"
  | .vnum n => intToDecimal n
  | .vstr s => s
  | .vdate iso => iso
  | .vobj _ => "[object Object]"

/-! ### Endpoint configuration (`FieldConfig` / `EndpointConfig`) -/

/-- Table sort order (`SortOrder` from the table library). -/
inductive TableSortOrder where
  | ascend
  | descend
deriving DecidableEq, Repr

/-- Relation descriptor of a relation field. -/
structure RelationCfg where
  entity : String
  idField : String
  keyColumns : List String
deriving DecidableEq, Repr

/-- The parts of `FieldConfig` the verified logic reads (second-revision
names; the first revision calls `showInList` `shouldShowInListView`). -/
structure FieldCfg where
  key : String
  label : String
  showInList : Bool
  sortable : Bool
  filterable : Bool
  relation : Option RelationCfg := none
deriving DecidableEq, Repr

/-- The parts of `EndpointConfig` the verified logic reads. -/
structure EndpointCfg where
  key : String
  label : String
  url : String
  idField : Option String
  fields : List FieldCfg
deriving DecidableEq, Repr

/-- Sorting state kept by the component. -/
structure SortingState where
  field : Option String
  order : TableSortOrder
deriving DecidableEq, Repr

/-- URL value of a table sort order (`order === 'ascend' ? 'asc' : 'desc'`). -/
def orderParam : TableSortOrder → String
  | .ascend => "asc"
  | .descend => "desc"

/-! ### URL filter state: decoding (ItemCrud.tsx first revision,
lines 381-416) -/

/-- A JS array of strings with holes (`arr[1] = v` on an empty array
leaves index 0 unset). -/
abbrev FilterArr := List (Option String)

/-- The in-memory filter map `Record<string, string[]>`, insertion
ordered. -/
abbrev Filters := List (String × FilterArr)

/-- JS index assignment `a[i] = v`, extending the array with holes. -/
def jsArraySet (a : FilterArr) (i : Nat) (v : String) : FilterArr :=
  if i < a.length then a.set i (some v)
  else a ++ List.replicate (i - a.length) none ++ [some v]

/-- `newFilters[baseKey] = newFilters[baseKey] or []; newFilters[baseKey][i] = v`. -/
def setRangeSlot (fs : Filters) (k : String) (i : Nat) (v : String) : Filters :=
  assocSet fs k (jsArraySet ((assocGet fs k).getD []) i v)

/-- One step of the URL-filter parsing `useEffect`: skip the pagination
and sorting parameters, route `k[min]` / `k[max]` into slots 0 / 1 of
the base key, and split every other value on commas. -/
def parseFilterStep (fs : Filters) (p : String × String) : Filters :=
  if p.1 = "page" ∨ p.1 = "pageSize" ∨ p.1 = "sort" ∨ p.1 = "order" then fs
  else if strEndsWith p.1 "[min]" then setRangeSlot fs (dropSuffixLen p.1 5) 0 p.2
  else if strEndsWith p.1 "[max]" then setRangeSlot fs (dropSuffixLen p.1 5) 1 p.2
  else assocSet fs p.1 ((jsSplitComma p.2).map some)

/-- The URL-filter parsing `useEffect` (`searchParams.forEach` over
`location.search`), ItemCrud.tsx first revision lines 381-416. -/
def parseFiltersFromURL (ps : Params) : Filters :=
  ps.foldl parseFilterStep []

/-! ### URL filter state: encoding (`handleFilterChange`,
ItemCrud.tsx first revision lines 640-672) -/

/-- Body of the `Object.entries(newFilters).forEach` in
`handleFilterChange`: skip empty lists, write two-element lists as
`k[min]` / `k[max]`, comma-join everything else. -/
def applyFilterParam (ps : Params) (kv : String × List String) : Params :=
  match kv.2 with
  | [] => ps
  | [v0, v1] => paramsSet (paramsSet ps (kv.1 ++ "[min]") v0) (kv.1 ++ "[max]") v1
  | vs => paramsSet ps kv.1 (jsJoinSep "," vs)

/-- `handleFilterChange`: rebuild the query string from scratch with
`page=1`, the current page size, the current sorting, then the filters. -/
def handleFilterChange (pageSize : Nat) (sorting : SortingState)
    (newFilters : List (String × List String)) : Params :=
  let ps0 := paramsSet (paramsSet [] "page" "1") "pageSize" (natToDecimal pageSize)
  let ps1 :=
    match sorting.field with
    | some f => paramsSet (paramsSet ps0 "sort" f) "order" (orderParam sorting.order)
    | none => ps0
  newFilters.foldl applyFilterParam ps1

/-- The pagination/sorting pairs `handleFilterChange` writes before the
filters. -/
def basePairs (pageSize : Nat) (sorting : SortingState) : Params :=
  [("page", "1"), ("pageSize", natToDecimal pageSize)] ++
  (match sorting.field with
   | some fld => [("sort", fld), ("order", orderParam sorting.order)]
   | none => [])

/-- The query pairs one filter entry contributes: none for an empty
list, `k[min]` / `k[max]` for a two-element list, a comma-joined pair
otherwise. -/
def filterParamsOf (kv : String × List String) : Params :=
  match kv.2 with
  | [] => []
  | [v0, v1] => [(kv.1 ++ "[min]", v0), (kv.1 ++ "[max]", v1)]
  | vs => [(kv.1, jsJoinSep "," vs)]

/-- A filter key that survives the round-trip: not one of the reserved
parameter names and not itself ending in `[min]` / `[max]`. -/
def goodFilterKey (k : String) : Bool :=
  !(k == "page") && !(k == "pageSize") && !(k == "sort") && !(k == "order") &&
  !(strEndsWith k "[min]") && !(strEndsWith k "[max]")

/-- A filter value list that survives the round-trip: non-empty, and
comma-free unless it is a two-element range (whose values travel in the
unsplit `[min]` / `[max]` parameters). -/
def goodFilterVal (vs : List String) : Bool :=
  !vs.isEmpty && (vs.length == 2 || vs.all (fun v => decide (',' ∉ v.data)))

/-- No pair in `ps` carries the key `k`. -/
def freshKey (ps : Params) (k : String) : Prop :=
  ∀ p ∈ ps, p.1 ≠ k

/-! ### URL sort state (`handleTableChange`, first revision lines
1638-1689, and the column sort decoding, lines 1221-1230 / 2839-2850) -/

/-- The table library's `SorterResult`, restricted to the single-sorter
shape: whether a column is attached, its field key and its order. -/
structure SorterResultM where
  column : Bool
  field : String
  order : Option TableSortOrder
deriving DecidableEq, Repr

/-- Incoming `TablePaginationConfig` of `handleTableChange`. -/
structure TablePaginationM where
  current : Option Nat
  pageSize : Option Nat
  total : Option Nat
deriving DecidableEq, Repr

/-- `handleTableChange`: write `page` / `pageSize`, then `sort` / `order`
when an ordered sorter column is present, else delete both. -/
def handleTableChange (search : Params) (pag : TablePaginationM)
    (sorter : SorterResultM) : Params :=
  let ps := paramsSet search "page" (natToDecimal (pag.current.getD 1))
  let ps := paramsSet ps "pageSize" (natToDecimal (pag.pageSize.getD 10))
  if sorter.column then
    match sorter.order with
    | some o => paramsSet (paramsSet ps "sort" sorter.field) "order" (orderParam o)
    | none => paramsDelete (paramsDelete ps "sort") "order"
  else paramsDelete (paramsDelete ps "sort") "order"

/-- Sort decoding inside the column builder: the column for `field.key`
carries `sortOrder` `ascend` when `order=asc`, `descend` for any other
`order` value, and no order when `sort` names a different key. -/
def columnSortOrder (search : Params) (fieldKey : String) : Option TableSortOrder :=
  if paramsGet search "sort" = some fieldKey then
    some (if paramsGet search "order" = some "asc" then .ascend else .descend)
  else none

/-! ### List-view columns (`columns`, second revision lines 2834-3050;
the first revision differs only in the flag name and `sorter: true`) -/

/-- The observable shape of a built column: header, key, sorter flag,
decoded sort order, and whether it is the trailing Actions column. -/
structure ColumnM where
  title : String
  key : String
  sorter : Bool
  sortOrder : Option TableSortOrder
  isActions : Bool
deriving DecidableEq, Repr

/-- Column built for a shown field. The cell `render` bodies produce
library widgets and are outside the embedding. -/
def fieldColumn (search : Params) (f : FieldCfg) : ColumnM :=
  { title := f.label
    key := f.key
    sorter := f.sortable
    sortOrder := columnSortOrder search f.key
    isActions := false }

/-- The trailing Actions column object (always part of the array literal). -/
def actionsColumn : ColumnM :=
  { title := "Actions", key := "actions", sorter := false, sortOrder := none
    isActions := true }

/-- The `render` of the Actions column: `null` when no `idField` is
configured (or it is empty, hence falsy), else the Edit/Delete buttons
whose Delete handler receives `record[idField]`. -/
def actionsCellRender (ep : EndpointCfg) (record : Item) : Option JSValue :=
  match ep.idField with
  | none => none
  | some idf => if idf = "" then none else some (itemGet record idf)

/-- The `columns` array: shown fields in configuration order, then the
Actions column; empty while no endpoint is selected. -/
def columnsModel (search : Params) (ep : Option EndpointCfg) : List ColumnM :=
  match ep with
  | none => []
  | some ep =>
    ((ep.fields.filter (fun f => f.showInList)).map (fieldColumn search)) ++ [actionsColumn]

/-! ### `fetchItems` request sequencing and pagination sync
(second revision, lines 1892-1959) -/

/-- A successful list response body: `{ count?, data }`, or a bare
array (`data` then holds the items and `count` is absent). -/
structure ListResponse where
  count : Option Int
  data : List Item

/-- `UI_CONSTANTS.ID_FIELDS.POSSIBLE_FIELDS`. -/
def possibleIdFields : List String := ["id", "uid", "uuid", "_id"]

/-- Per-item id back-fill in `fetchItems`: when the configured id field
is falsy on the item, copy the first truthy candidate id property. -/
def processItem (idField : Option String) (it : Item) : Item :=
  match idField with
  | none => it
  | some idf =>
    if idf = "" then it
    else if jsTruthy (itemGet it idf) then it
    else
      match possibleIdFields.find? (fun f => jsTruthy (itemGet it f)) with
      | some f => assocSet it idf (itemGet it f)
      | none => it

/-- The string fed to `parseInt` for the page size:
`searchParams.get('pageSize') || config.defaultPagesize?.toString() || '10'`. -/
def pageSizeSource (defaultPagesize : Option Nat) (search : Params) : String :=
  jsOrString (paramsGet search "pageSize")
    (jsOrString (defaultPagesize.map natToDecimal) "10")

/-- The string fed to `parseInt` for the page:
`searchParams.get('page') || '1'`. -/
def pageSource (search : Params) : String :=
  jsOrString (paramsGet search "page") "1"

/-- Pagination state; `none` components record a `NaN` parse. -/
structure PaginationState where
  current : Option Int
  pageSize : Option Int
  total : Int
deriving DecidableEq, Repr

/-- Component state touched by `fetchItems`. -/
structure FetchState where
  requestId : Nat
  loading : Bool
  items : List Item
  pagination : PaginationState
  mounted : Bool

/-- Ambient data of one `fetchItems` run: the endpoint's id field, the
configured default page size and the current `location.search`. -/
structure FetchCtx where
  idField : Option String
  defaultPagesize : Option Nat
  search : Params

/-- Issuing a request in `fetchItems`: no-op without a selected
endpoint; otherwise `const currentRequestId = ++requestIdRef.current`
and `setLoading(true)`, returning the id the run captured. -/
def fetchItemsStart (st : FetchState) (endpointSelected : Bool) :
    FetchState × Option Nat :=
  if endpointSelected then
    ({ st with requestId := st.requestId + 1, loading := true },
     some (st.requestId + 1))
  else (st, none)

/-- Applying a successful response: dropped wholesale when the component
unmounted or the captured id is no longer the latest; otherwise items,
pagination (re-parsed from the URL) and loading are updated. -/
def fetchItemsComplete (ctx : FetchCtx) (st : FetchState) (reqId : Nat)
    (resp : ListResponse) : FetchState :=
  if st.mounted = false ∨ reqId ≠ st.requestId then st
  else
    { st with
      pagination :=
        { current := jsParseInt none (pageSource ctx.search)
          pageSize := jsParseInt none (pageSizeSource ctx.defaultPagesize ctx.search)
          total := resp.count.getD (Int.ofNat resp.data.length) }
      items := resp.data.map (processItem ctx.idField)
      loading := false }

/-- Applying a request error: dropped under the same guard; otherwise
only a notification is shown and loading cleared. -/
def fetchItemsError (st : FetchState) (reqId : Nat) : FetchState :=
  if st.mounted = false ∨ reqId ≠ st.requestId then st
  else { st with loading := false }

/-- The events a `fetchItems` lifecycle produces. -/
inductive FetchEvent where
  | start (endpointSelected : Bool)
  | complete (reqId : Nat) (resp : ListResponse)
  | error (reqId : Nat)

/-- One event applied to the component state. -/
def fetchStep (ctx : FetchCtx) (st : FetchState) : FetchEvent → FetchState
  | .start b => (fetchItemsStart st b).1
  | .complete r resp => fetchItemsComplete ctx st r resp
  | .error r => fetchItemsError st r

/-- A sequence of fetch events applied in order. -/
def runFetchEvents (ctx : FetchCtx) (st : FetchState) (evs : List FetchEvent) :
    FetchState :=
  evs.foldl (fetchStep ctx) st

/-! ### Upload size checks (`beforeUpload`: ItemCrud.tsx first revision
lines 1097-1105, fileInput.tsx lines 119-126) -/

/-- What a `beforeUpload` callback returns to the upload widget. -/
inductive UploadDecision where
  | acceptUpload
  | listIgnore
  | blockAutoUpload
deriving DecidableEq, Repr

/-- fileInput.tsx `beforeUpload`: reject oversize files with
`Upload.LIST_IGNORE` (file never enters the list) and an error message;
note the guard `field.maxSize && …` skips the check when `maxSize` is
absent or `0`. Returns (error message shown, decision). -/
def beforeUploadFileInput (maxSize : Option ℚ) (fileSize : ℚ) :
    Bool × UploadDecision :=
  match maxSize with
  | some m =>
    if m ≠ 0 ∧ fileSize / 1024 / 1024 > m then (true, .listIgnore)
    else (false, .acceptUpload)
  | none => (false, .acceptUpload)

/-- ItemCrud.tsx first-revision `beforeUpload`: same size guard with the
error message, but `false` is returned on both paths to block the
automatic upload. -/
def beforeUploadItemCrud (maxSize : Option ℚ) (fileSize : ℚ) :
    Bool × UploadDecision :=
  match maxSize with
  | some m =>
    if m ≠ 0 ∧ fileSize / 1024 / 1024 > m then (true, .blockAutoUpload)
    else (false, .blockAutoUpload)
  | none => (false, .blockAutoUpload)

/-! ### Relation options (`RelationField.loadRelationOptions`,
ItemCrud.tsx first revision lines 135-158) -/

/-- `response.data.data || response.data`: the wrapped item list when the
body carries a `data` property, else the body itself as an array. -/
structure RelationResponse where
  dataProp : Option (List Item)
  bodyItems : List Item

/-- Item list extracted from a relation response. -/
def relationItems (r : RelationResponse) : List Item :=
  match r.dataProp with
  | some l => l
  | none => r.bodyItems

/-- A select option `{ label, value }`. -/
structure SelectOption where
  label : String
  value : JSValue

/-- Option label: the item's values at the relation's key columns,
falsy ones removed, joined by `' - '`. -/
def relationLabel (rel : RelationCfg) (it : Item) : String :=
  jsJoinSep " - "
    (((rel.keyColumns.map (fun col => itemGet it col)).filter jsTruthy).map jsToStringV)

/-- `loadRelationOptions`: one option per fetched item, labelled by the
key columns and valued by the item's id field. -/
def loadRelationOptions (rel : RelationCfg) (r : RelationResponse) :
    List SelectOption :=
  (relationItems r).map
    (fun it => { label := relationLabel rel it, value := itemGet it rel.idField })

/-! ### Guarded deletion (`handleDeleteConfirm`, second revision lines
2445-2473) -/

/-- Component state read and written by `handleDeleteConfirm`. -/
structure DeleteState where
  selectedEndpoint : Option EndpointCfg
  itemToDelete : Option String
  deleteInput : String
  loading : Bool
  deleteModalVisible : Bool
deriving DecidableEq, Repr

/-- `handleDeleteConfirm`: early return unless an endpoint is selected,
`itemToDelete` is truthy and the input is exactly `DELETE`; otherwise a
DELETE request to `url/id` is issued and the `finally` block clears
loading, the modal, the pending id and the input (the same for a success
or an error response; a success additionally re-runs `fetchItems`).
Returns the next state and the requested URL, if any. -/
def handleDeleteConfirm (st : DeleteState) : DeleteState × Option String :=
  match st.selectedEndpoint, st.itemToDelete with
  | some ep, some itemId =>
    if itemId ≠ "" ∧ st.deleteInput = "DELETE" then
      ({ st with loading := false, deleteModalVisible := false,
                 itemToDelete := none, deleteInput := "" },
       some (ep.url ++ "/" ++ itemId))
    else (st, none)
  | _, _ => (st, none)

/-! ### `renderValue` (second revision lines 2475-2519) -/

/-- `renderValue`: null-ish to `null`, objects to their `uid` (else an
ISO date or `String(value)`), the strings and numbers that look boolean
to booleans, everything else unchanged. -/
def renderValue : JSValue → JSValue
  | .vnull => .vnull
  | .vundefined => .vnull
  | .vobj fields =>
    match fields.find? (fun p => p.1 == "uid") with
    | some p => p.2
    | none => .vstr "[object Object]"
  | .vdate iso => .vstr iso
  | .vstr s =>
    if s = "true" ∨ s = "1" then .vbool true
    else if s = "false" ∨ s = "0" then .vbool false
    else .vstr s
  | .vnum n =>
    if n = 1 then .vbool true
    else if n = 0 then .vbool false
    else .vnum n
  | .vbool b => .vbool b

/-! ### Entity-switch reset (`loadData` effect, first revision lines
541-588) -/

/-- The pieces of list state the `loadData` effect resets. -/
structure ListUiState where
  pagination : PaginationState
  filters : Filters
  sorting : SortingState
  selectedEndpoint : Option EndpointCfg

/-- A `navigate(path, { replace })` call. -/
structure NavAction where
  path : String
  replace : Bool
deriving DecidableEq, Repr

/-- What the effect fetches after settling the endpoint. -/
inductive FetchKind where
  | fetchList
  | fetchById (id : String)
  | noFetch
deriving DecidableEq, Repr

/-- The `loadData` effect body: on a route entity naming a configured
endpoint different from the selected one, reset pagination, filters and
sorting, replace the URL with the bare entity path, select the endpoint
and fetch; without an entity, redirect to the first endpoint. -/
def loadDataEffect (endpoints : List EndpointCfg) (entity : Option String)
    (operation : Option String) (id : Option String) (st : ListUiState) :
    ListUiState × List NavAction × FetchKind :=
  match entity with
  | some e =>
    match endpoints.find? (fun ep => ep.key == e) with
    | some ep =>
      let reset := st.selectedEndpoint.map (fun p => p.key) ≠ some e
      let st1 :=
        if reset then
          { st with
            pagination := { current := some 1, pageSize := some 10, total := 0 }
            filters := []
            sorting := { field := none, order := .ascend } }
        else st
      let navs := if reset then [⟨"/" ++ e, true⟩] else ([] : List NavAction)
      let st2 := { st1 with selectedEndpoint := some ep }
      let fetch :=
        match operation, id with
        | some op, some i =>
          if op ≠ "" ∧ i ≠ "" then FetchKind.fetchById i else FetchKind.fetchList
        | _, _ => FetchKind.fetchList
      (st2, navs, fetch)
    | none => (st, [], .noFetch)
  | none =>
    match endpoints with
    | ep0 :: _ => (st, [⟨"/" ++ ep0.key, true⟩], .noFetch)
    | [] => (st, [], .noFetch)

/-! ### Sample endpoint configurations used as concrete inputs -/

/-- A sample endpoint configuration with a configured id field. -/
def epUsers : EndpointCfg :=
  { key := "users", label := "Users", url := "/users", idField := some "uid"
    fields := [{ key := "uid", label := "ID", showInList := true,
                 sortable := false, filterable := false }] }

/-- A sample endpoint configuration without an id field. -/
def epNoId : EndpointCfg :=
  { key := "items", label := "Items", url := "/items", idField := none
    fields := [{ key := "name", label := "Name", showInList := true,
                 sortable := true, filterable := false },
               { key := "secret", label := "Secret", showInList := false,
                 sortable := false, filterable := false }] }

/-! ## Helper lemmas about the `URLSearchParams` model -/

theorem paramsGet_paramsDelete_self (ps : Params) (k : String) :
    paramsGet (paramsDelete ps k) k = none := by
  unfold paramsGet assocGet paramsDelete
  induction ps with
  | nil => rfl
  | cons p rest ih =>
    by_cases h : p.1 = k
    · simp only [List.filter_cons, h]
      simp only [bne_self_eq_false, Bool.false_eq_true, if_false]
      exact ih
    · have hb : (p.1 == k) = false := by simp [h]
      simp only [List.filter_cons, bne, hb, Bool.not_false, if_true, List.find?_cons, hb]
      exact ih

theorem paramsGet_paramsDelete_other (ps : Params) (k k' : String) (h : k' ≠ k) :
    paramsGet (paramsDelete ps k) k' = paramsGet ps k' := by
  unfold paramsGet assocGet paramsDelete
  induction ps with
  | nil => rfl
  | cons p rest ih =>
    by_cases hp : p.1 = k
    · have hp' : ¬ p.1 = k' := by rw [hp]; exact Ne.symm h
      simpa [List.filter_cons, List.find?_cons, hp, hp', Ne.symm h] using ih
    · by_cases hk' : p.1 = k'
      · simp [List.filter_cons, List.find?_cons, hp, hk', h]
      · simpa [List.filter_cons, List.find?_cons, hp, hk'] using ih

theorem paramsGet_paramsSet_self (ps : Params) (k v : String) :
    paramsGet (paramsSet ps k v) k = some v := by
  induction ps with
  | nil => simp [paramsSet, paramsGet, assocGet]
  | cons p rest ih =>
    by_cases h : p.1 = k
    · simp [paramsSet, paramsGet, assocGet, h]
    · simpa [paramsSet, paramsGet, assocGet, List.find?_cons, h] using ih

theorem paramsGet_paramsSet_other (ps : Params) (k v k' : String) (h : k' ≠ k) :
    paramsGet (paramsSet ps k v) k' = paramsGet ps k' := by
  induction ps with
  | nil => simp [paramsSet, paramsGet, assocGet, Ne.symm h]
  | cons p rest ih =>
    by_cases hp : p.1 = k
    · have h2 := paramsGet_paramsDelete_other rest k k' h
      unfold paramsGet assocGet at *
      simp [paramsSet, List.find?_cons, hp, Ne.symm h, h2]
    · by_cases hk' : p.1 = k'
      · simp [paramsSet, paramsGet, assocGet, List.find?_cons, hp, hk', h]
      · simpa [paramsSet, paramsGet, assocGet, List.find?_cons, hp, hk'] using ih

/-! ## C3: URL round-trip of sort state -/

/-- C3: `handleTableChange` writes `sort=k` and `order=asc|desc` for an
ordered sorter and deletes both parameters when the order is cleared;
the column builder decodes `sort=k` back to `ascend` exactly when
`order=asc` and to `descend` otherwise, so encoding then decoding
restores the table sort state. -/
theorem handleTableChange_sort_roundTrip :
    (∀ (search : Params) (pag : TablePaginationM) (k : String) (o : TableSortOrder),
      paramsGet (handleTableChange search pag ⟨true, k, some o⟩) "sort" = some k ∧
      paramsGet (handleTableChange search pag ⟨true, k, some o⟩) "order" =
        some (orderParam o) ∧
      columnSortOrder (handleTableChange search pag ⟨true, k, some o⟩) k = some o) ∧
    (∀ (search : Params) (pag : TablePaginationM) (k : String),
      paramsGet (handleTableChange search pag ⟨true, k, none⟩) "sort" = none ∧
      paramsGet (handleTableChange search pag ⟨true, k, none⟩) "order" = none) ∧
    (∀ (search : Params) (k : String), paramsGet search "sort" = some k →
      columnSortOrder search k =
        some (if paramsGet search "order" = some "asc" then .ascend else .descend)) := by
  refine ⟨?_, ?_, ?_⟩
  · intro search pag k o
    have henc : handleTableChange search pag ⟨true, k, some o⟩ =
        paramsSet (paramsSet
          (paramsSet (paramsSet search "page" (natToDecimal (pag.current.getD 1)))
            "pageSize" (natToDecimal (pag.pageSize.getD 10))) "sort" k)
          "order" (orderParam o) := rfl
    have hsort : paramsGet (handleTableChange search pag ⟨true, k, some o⟩) "sort"
        = some k := by
      rw [henc, paramsGet_paramsSet_other _ _ _ _ (by decide), paramsGet_paramsSet_self]
    have horder : paramsGet (handleTableChange search pag ⟨true, k, some o⟩) "order"
        = some (orderParam o) := by
      rw [henc, paramsGet_paramsSet_self]
    refine ⟨hsort, horder, ?_⟩
    rw [columnSortOrder, if_pos hsort, horder]
    cases o <;> simp [orderParam]
  · intro search pag k
    have henc : handleTableChange search pag ⟨true, k, none⟩ =
        paramsDelete (paramsDelete
          (paramsSet (paramsSet search "page" (natToDecimal (pag.current.getD 1)))
            "pageSize" (natToDecimal (pag.pageSize.getD 10))) "sort") "order" := rfl
    constructor
    · rw [henc, paramsGet_paramsDelete_other _ _ _ (by decide),
        paramsGet_paramsDelete_self]
    · rw [henc, paramsGet_paramsDelete_self]
  · intro search k h
    rw [columnSortOrder, if_pos h]

/-- C3 witness: a concrete sorted table change round-trips. -/
theorem handleTableChange_sort_roundTrip_witness :
    columnSortOrder [("sort", "name"), ("order", "desc")] "name" =
      some .descend ∧
    columnSortOrder
      (handleTableChange [] ⟨some 2, some 10, some 0⟩ ⟨true, "price", some .ascend⟩)
      "price" = some .ascend := by
  refine ⟨?_, (handleTableChange_sort_roundTrip.1 [] ⟨some 2, some 10, some 0⟩
    "price" .ascend).2.2⟩
  exact (handleTableChange_sort_roundTrip.2.2 [("sort", "name"), ("order", "desc")]
    "name" rfl).trans (by decide)

/-! ## C8: guarded deletion -/

/-- C8 counterexample: with an endpoint selected, a pending (but empty)
item id and the confirmation input `DELETE`, `handleDeleteConfirm` still
issues no request — the guard tests JS truthiness of `itemToDelete`, so
the claimed "if and only if" fails at the empty-string id. -/
theorem handleDeleteConfirm_claim_counterexample :
    ¬ (((handleDeleteConfirm ⟨some epUsers, some "", "DELETE", false, true⟩).2.isSome
          = true) ↔
       ((some epUsers : Option EndpointCfg).isSome = true ∧
        (some "" : Option String).isSome = true ∧ ("DELETE" : String) = "DELETE")) := by
  decide

/-- C8 amended: `handleDeleteConfirm` issues a DELETE request exactly
when an endpoint is selected, a *non-empty* item id is pending (the
empty string is falsy, hence treated as no pending item) and the input
is exactly `DELETE`; otherwise it returns with the state unchanged; on
issue the request targets `url/id`. -/
theorem handleDeleteConfirm_guard (st : DeleteState) :
    ((handleDeleteConfirm st).2.isSome = true ↔
      (st.selectedEndpoint.isSome = true ∧ optStrTruthy st.itemToDelete = true ∧
       st.deleteInput = "DELETE")) ∧
    ((handleDeleteConfirm st).2 = none → (handleDeleteConfirm st).1 = st) ∧
    (∀ ep itemId, st.selectedEndpoint = some ep → st.itemToDelete = some itemId →
      itemId ≠ "" → st.deleteInput = "DELETE" →
      (handleDeleteConfirm st).2 = some (ep.url ++ "/" ++ itemId)) := by
  obtain ⟨epo, ito, input, loading, modal⟩ := st
  match epo, ito with
  | none, none => simp [handleDeleteConfirm, optStrTruthy]
  | none, some i => simp [handleDeleteConfirm, optStrTruthy]
  | some ep, none => simp [handleDeleteConfirm, optStrTruthy]
  | some ep, some i =>
    by_cases hi : i = ""
    · simp [handleDeleteConfirm, optStrTruthy, hi]
    · by_cases hin : input = "DELETE"
      · simp [handleDeleteConfirm, optStrTruthy, hi, hin]
      · simp [handleDeleteConfirm, optStrTruthy, hi, hin]

/-- C8 witness: a concrete deletion with the input `DELETE` issues the
request `/users/42`. -/
theorem handleDeleteConfirm_guard_witness :
    (handleDeleteConfirm ⟨some epUsers, some "42", "DELETE", false, true⟩).2 =
      some "/users/42" :=
  (handleDeleteConfirm_guard ⟨some epUsers, some "42", "DELETE", false, true⟩).2.2
    epUsers "42" rfl rfl (by decide) rfl

/-! ## C9: `renderValue` coercion -/

/-- C9: `renderValue` maps null and undefined to null, an object with a
`uid` key to its `uid` property, the strings `true` / `1` and the number
1 to `true`, the strings `false` / `0` and the number 0 to `false` (so a
numeric cell holding 0 or 1 renders as a boolean), and leaves every
other string, number and boolean unchanged. -/
theorem renderValue_coercion :
    renderValue .vnull = .vnull ∧
    renderValue .vundefined = .vnull ∧
    (∀ (fields : List (String × JSValue)) p,
      fields.find? (fun q => q.1 == "uid") = some p →
      renderValue (.vobj fields) = p.2) ∧
    renderValue (.vstr "true") = .vbool true ∧
    renderValue (.vstr "1") = .vbool true ∧
    renderValue (.vnum 1) = .vbool true ∧
    renderValue (.vstr "false") = .vbool false ∧
    renderValue (.vstr "0") = .vbool false ∧
    renderValue (.vnum 0) = .vbool false ∧
    (∀ s : String, s ≠ "true" → s ≠ "1" → s ≠ "false" → s ≠ "0" →
      renderValue (.vstr s) = .vstr s) ∧
    (∀ n : Int, n ≠ 0 → n ≠ 1 → renderValue (.vnum n) = .vnum n) ∧
    (∀ b : Bool, renderValue (.vbool b) = .vbool b) := by
  refine ⟨rfl, rfl, ?_, rfl, rfl, rfl, rfl, rfl, rfl, ?_, ?_, fun b => rfl⟩
  · intro fields p h
    simp [renderValue, h]
  · intro s h1 h2 h3 h4
    simp [renderValue, h1, h2, h3, h4]
  · intro n h0 h1
    simp [renderValue, h0, h1]

/-- C9 witness: the hypothesis-bearing cases at concrete values — an
object with a `uid`, an ordinary string and an ordinary number. -/
theorem renderValue_coercion_witness :
    renderValue (.vobj [("uid", .vstr "u1")]) = .vstr "u1" ∧
    renderValue (.vstr "yes") = .vstr "yes" ∧
    renderValue (.vnum 7) = .vnum 7 := by
  obtain ⟨-, -, huid, -, -, -, -, -, -, hstr, hnum, -⟩ := renderValue_coercion
  exact ⟨huid [("uid", .vstr "u1")] ("uid", .vstr "u1") rfl,
    hstr "yes" (by decide) (by decide) (by decide) (by decide),
    hnum 7 (by decide) (by decide)⟩

/-! ## C6: upload size limit -/

/-- C6 counterexample: a 1 MB file exceeds a configured `maxSize` of 0
megabytes, yet both `beforeUpload` implementations accept it without an
error — the `field.maxSize && …` guard treats 0 as "no limit". -/
theorem beforeUpload_maxSizeZero_counterexample :
    ((1048576 : ℚ) / 1024 / 1024 > 0) ∧
    beforeUploadFileInput (some 0) 1048576 = (false, .acceptUpload) ∧
    beforeUploadItemCrud (some 0) 1048576 = (false, .blockAutoUpload) := by
  refine ⟨by norm_num, ?_, ?_⟩ <;>
    simp [beforeUploadFileInput, beforeUploadItemCrud]

/-- C6 amended: for every configured `maxSize ≠ 0`, a file whose size in
megabytes exceeds `maxSize` is rejected with an error message —
fileInput.tsx returns `Upload.LIST_IGNORE` so the file never enters the
list, and the first-revision ItemCrud handler returns `false`; a
`maxSize` of 0 is falsy and disables the size check entirely. -/
theorem beforeUpload_sizeLimit (m fileSize : ℚ) (hm : m ≠ 0)
    (hover : fileSize / 1024 / 1024 > m) :
    beforeUploadFileInput (some m) fileSize = (true, .listIgnore) ∧
    beforeUploadItemCrud (some m) fileSize = (true, .blockAutoUpload) ∧
    (∀ sz : ℚ, beforeUploadFileInput (some 0) sz = (false, .acceptUpload) ∧
      beforeUploadItemCrud (some 0) sz = (false, .blockAutoUpload)) := by
  refine ⟨?_, ?_, fun sz => ⟨?_, ?_⟩⟩ <;>
    simp [beforeUploadFileInput, beforeUploadItemCrud, hm, hover]

/-- C6 witness: a 2 MB file against a 1 MB limit is ignored. -/
theorem beforeUpload_sizeLimit_witness :
    beforeUploadFileInput (some 1) 2097152 = (true, .listIgnore) :=
  (beforeUpload_sizeLimit 1 2097152 (by norm_num) (by norm_num)).1

/-! ## C7: relation lookup options -/

/-- C7: `loadRelationOptions` builds one option per fetched item; the
option's value is the item's value at the relation's `idField`, and its
label is the item's values at the relation's `keyColumns` with falsy
values removed, joined by `' - '`. -/
theorem loadRelationOptions_spec (rel : RelationCfg) (r : RelationResponse) :
    (loadRelationOptions rel r).length = (relationItems r).length ∧
    (∀ i, i < (relationItems r).length →
      (loadRelationOptions rel r).getD i ⟨"", .vundefined⟩ =
        { label := jsJoinSep " - "
            (((rel.keyColumns.map
                (fun col => itemGet ((relationItems r).getD i []) col)).filter
              jsTruthy).map jsToStringV)
          value := itemGet ((relationItems r).getD i []) rel.idField }) := by
  constructor
  · simp [loadRelationOptions]
  · intro i hi
    have hsome : (relationItems r)[i]? = some ((relationItems r)[i]) :=
      List.getElem?_eq_getElem hi
    simp [loadRelationOptions, List.getD, List.getElem?_map, hsome, relationLabel]

/-- C7 witness: two users produce two options, labelled by the truthy
key columns and valued by the id field. -/
theorem loadRelationOptions_spec_witness :
    (loadRelationOptions ⟨"users", "uid", ["fname", "lname"]⟩
        ⟨some [[("uid", .vstr "u1"), ("fname", .vstr "Ada"), ("lname", .vstr "")],
               [("uid", .vstr "u2"), ("fname", .vstr "Bo"), ("lname", .vstr "Ek")]],
         []⟩).getD 0 ⟨"", .vundefined⟩ =
      { label := "Ada", value := .vstr "u1" } :=
  (loadRelationOptions_spec ⟨"users", "uid", ["fname", "lname"]⟩
    ⟨some [[("uid", .vstr "u1"), ("fname", .vstr "Ada"), ("lname", .vstr "")],
           [("uid", .vstr "u2"), ("fname", .vstr "Bo"), ("lname", .vstr "Ek")]],
     []⟩).2 0 (by decide) |>.trans (by rfl)

/-! ## C4: field-driven column list -/

/-- C4 counterexample: with no `idField` configured the claim predicts
the Actions column is omitted, but `columnsModel` still appends it (only
its cells render null), so the claimed column list is wrong for
`epNoId`. -/
theorem columns_actionsOmitted_counterexample :
    ¬ (columnsModel [] (some epNoId) =
       ((epNoId.fields.filter (fun f => f.showInList)).map (fieldColumn [])) ++
       (if optStrTruthy epNoId.idField then [actionsColumn] else [])) := by
  decide

/-- C4 amended: the column list is exactly the fields whose show-in-list
flag is set, in configuration order, followed by exactly one trailing
Actions column; the Actions column is always present, but its cells
render null when no (truthy) `idField` is configured. -/
theorem columnsModel_spec (search : Params) (ep : EndpointCfg) :
    columnsModel search (some ep) =
      ((ep.fields.filter (fun f => f.showInList)).map (fieldColumn search)) ++
        [actionsColumn] ∧
    ((columnsModel search (some ep)).filter (fun c => c.isActions)) =
      [actionsColumn] ∧
    (optStrTruthy ep.idField = false →
      ∀ record : Item, actionsCellRender ep record = none) := by
  refine ⟨rfl, ?_, ?_⟩
  · simp [columnsModel, actionsColumn, List.filter_append, List.filter_map,
      fieldColumn, Function.comp]
  · intro h record
    cases hid : ep.idField with
    | none => simp [actionsCellRender, hid]
    | some idf =>
      rw [hid] at h
      simp only [optStrTruthy, bne_eq_false_iff_eq] at h
      simp [actionsCellRender, hid, h]

/-- C4 witness: the id-field-less endpoint still gets its Actions
column, whose render is null on every record. -/
theorem columnsModel_spec_witness :
    ((columnsModel [] (some epNoId)).filter (fun c => c.isActions)) =
      [actionsColumn] ∧
    actionsCellRender epNoId [("name", .vstr "x")] = none :=
  ⟨(columnsModel_spec [] epNoId).2.1,
   (columnsModel_spec [] epNoId).2.2 (by decide) [("name", .vstr "x")]⟩

/-! ## C10: entity-switch reset -/

/-- C10: when the route entity names a configured endpoint different
from the selected one, the `loadData` effect resets pagination to
`{current: 1, pageSize: 10, total: 0}`, clears the filter map, resets
sorting to `{field: null, order: ascend}`, selects the new endpoint and
replaces the URL with the bare `/<entity>` path. -/
theorem loadDataEffect_entitySwitch_reset
    (endpoints : List EndpointCfg) (e : String) (ep : EndpointCfg)
    (op id : Option String) (st : ListUiState)
    (hfind : endpoints.find? (fun p => p.key == e) = some ep)
    (hdiff : st.selectedEndpoint.map (fun p => p.key) ≠ some e) :
    (loadDataEffect endpoints (some e) op id st).1.pagination =
      { current := some 1, pageSize := some 10, total := 0 } ∧
    (loadDataEffect endpoints (some e) op id st).1.filters = [] ∧
    (loadDataEffect endpoints (some e) op id st).1.sorting = ⟨none, .ascend⟩ ∧
    (loadDataEffect endpoints (some e) op id st).1.selectedEndpoint = some ep ∧
    (loadDataEffect endpoints (some e) op id st).2.1 = [⟨"/" ++ e, true⟩] := by
  unfold loadDataEffect
  simp only [hfind]
  simp only [if_pos hdiff]
  exact ⟨trivial, trivial, trivial, trivial, trivial⟩

/-- C10 witness: switching from the users endpoint to the items route
resets the whole list state and replaces the URL. -/
theorem loadDataEffect_entitySwitch_reset_witness :
    (loadDataEffect [epUsers, epNoId] (some "items") none none
      ⟨⟨some 5, some 50, 100⟩, [("name", [some "x"])], ⟨some "name", .descend⟩,
        some epUsers⟩).1.pagination =
      { current := some 1, pageSize := some 10, total := 0 } ∧
    (loadDataEffect [epUsers, epNoId] (some "items") none none
      ⟨⟨some 5, some 50, 100⟩, [("name", [some "x"])], ⟨some "name", .descend⟩,
        some epUsers⟩).2.1 = [⟨"/items", true⟩] := by
  have h := loadDataEffect_entitySwitch_reset [epUsers, epNoId] "items" epNoId
    none none
    ⟨⟨some 5, some 50, 100⟩, [("name", [some "x"])], ⟨some "name", .descend⟩,
      some epUsers⟩ (by decide) (by decide)
  exact ⟨h.1, h.2.2.2.2⟩

/-! ## C2: request sequencing in `fetchItems` -/

theorem fetchStep_requestId_mono (ctx : FetchCtx) (st : FetchState)
    (e : FetchEvent) : st.requestId ≤ (fetchStep ctx st e).requestId := by
  cases e with
  | start b =>
    cases b <;> simp [fetchStep, fetchItemsStart]
  | complete r resp =>
    simp only [fetchStep, fetchItemsComplete]
    split <;> simp
  | error r =>
    simp only [fetchStep, fetchItemsError]
    split <;> simp

theorem runFetchEvents_requestId_mono (ctx : FetchCtx) (evs : List FetchEvent) :
    ∀ st : FetchState, st.requestId ≤ (runFetchEvents ctx st evs).requestId := by
  induction evs with
  | nil => intro st; exact le_rfl
  | cons e rest ih =>
    intro st
    exact le_trans (fetchStep_requestId_mono ctx st e) (ih (fetchStep ctx st e))

/-- C2: every request issued by `fetchItems` captures the freshly
incremented request id; across any later events the counter never
decreases, so a subsequently issued request always gets a strictly
larger id; and a completion or error whose captured id is no longer the
latest leaves items, pagination and loading — the whole state —
untouched. -/
theorem fetchItems_request_sequencing :
    (∀ st : FetchState, fetchItemsStart st true =
      ({ st with requestId := st.requestId + 1, loading := true },
       some (st.requestId + 1))) ∧
    (∀ (ctx : FetchCtx) (st : FetchState) (evs : List FetchEvent),
      st.requestId ≤ (runFetchEvents ctx st evs).requestId) ∧
    (∀ (ctx : FetchCtx) (st st1 st2 : FetchState) (evs : List FetchEvent)
       (id1 id2 : Nat),
      fetchItemsStart st true = (st1, some id1) →
      fetchItemsStart (runFetchEvents ctx st1 evs) true = (st2, some id2) →
      id1 < id2) ∧
    (∀ (ctx : FetchCtx) (st : FetchState) (reqId : Nat) (resp : ListResponse),
      reqId ≠ st.requestId → fetchItemsComplete ctx st reqId resp = st) ∧
    (∀ (st : FetchState) (reqId : Nat), reqId ≠ st.requestId →
      fetchItemsError st reqId = st) := by
  refine ⟨fun st => rfl, fun ctx st evs => runFetchEvents_requestId_mono ctx evs st,
    ?_, ?_, ?_⟩
  · intro ctx st st1 st2 evs id1 id2 h1 h2
    have e1 : ({ st with requestId := st.requestId + 1, loading := true },
        (some (st.requestId + 1) : Option Nat)) = (st1, some id1) := h1
    injection e1 with e1a e1b
    injection e1b with e1b
    have e2 : ({ (runFetchEvents ctx st1 evs) with
        requestId := (runFetchEvents ctx st1 evs).requestId + 1, loading := true },
        (some ((runFetchEvents ctx st1 evs).requestId + 1) : Option Nat)) =
        (st2, some id2) := h2
    injection e2 with e2a e2b
    injection e2b with e2b
    have hs : st1.requestId = st.requestId + 1 := by rw [← e1a]
    have m : st1.requestId ≤ (runFetchEvents ctx st1 evs).requestId :=
      runFetchEvents_requestId_mono ctx evs st1
    omega
  · intro ctx st reqId resp h
    simp [fetchItemsComplete, h]
  · intro st reqId h
    simp [fetchItemsError, h]

/-- C2 witness: two successive issues (with an interleaved error event)
get ids 1 < 2, and a stale completion (id 5 against current id 0) is a
no-op on the state. -/
theorem fetchItems_request_sequencing_witness :
    (1 : Nat) < 2 ∧
    fetchItemsComplete ⟨none, none, []⟩
      ⟨0, false, [], ⟨some 1, some 10, 0⟩, true⟩ 5 ⟨none, []⟩ =
      ⟨0, false, [], ⟨some 1, some 10, 0⟩, true⟩ :=
  ⟨fetchItems_request_sequencing.2.2.1 ⟨none, none, []⟩
      ⟨0, false, [], ⟨some 1, some 10, 0⟩, true⟩ _ _ [FetchEvent.error 1] 1 2 rfl rfl,
   fetchItems_request_sequencing.2.2.2.1 ⟨none, none, []⟩
      ⟨0, false, [], ⟨some 1, some 10, 0⟩, true⟩ 5 ⟨none, []⟩ (by decide)⟩

/-! ## Decimal printing round-trips through `parseInt` -/

theorem charDigitVal_of_digit {c : Char} (h : isDecDigit c = true) :
    charDigitVal c = some (c.toNat - 48) := by
  simp only [isDecDigit, Bool.and_eq_true, decide_eq_true_eq] at h
  simp [charDigitVal, h.1, h.2]

theorem takeDigits10_of_digits : ∀ (cs : List Char), cs.all isDecDigit = true →
    takeDigits 10 cs = cs.map (fun c => c.toNat - 48) := by
  intro cs
  induction cs with
  | nil => intro _; rfl
  | cons c rest ih =>
    intro h
    rw [List.all_cons, Bool.and_eq_true] at h
    have hb : 48 ≤ c.toNat ∧ c.toNat ≤ 57 := by
      simpa [isDecDigit] using h.1
    rw [takeDigits, charDigitVal_of_digit h.1, List.map_cons]
    simp only [if_pos (by omega : c.toNat - 48 < 10)]
    rw [ih h.2]

theorem digitsVal_append (r : Nat) (ds : List Nat) (d : Nat) :
    digitsVal r (ds ++ [d]) = digitsVal r ds * r + d := by
  simp [digitsVal, List.foldl_append]

theorem digitChar_isDecDigit : ∀ d : Nat, d < 10 →
    isDecDigit (Nat.digitChar d) = true := by decide

theorem digitChar_toNat_sub : ∀ d : Nat, d < 10 →
    (Nat.digitChar d).toNat - 48 = d := by decide

theorem natToDecimalAux_all_digits :
    ∀ (fuel n : Nat), (natToDecimalAux fuel n).all isDecDigit = true := by
  intro fuel
  induction fuel with
  | zero => intro n; cases n <;> rfl
  | succ f ih =>
    intro n
    cases n with
    | zero => rfl
    | succ m =>
      rw [natToDecimalAux, List.all_append]
      have hd : isDecDigit (Nat.digitChar ((m + 1) % 10)) = true :=
        digitChar_isDecDigit _ (Nat.mod_lt _ (by norm_num))
      simp [ih, hd]

theorem natToDecimalAux_val : ∀ (fuel n : Nat), n ≤ fuel →
    digitsVal 10 ((natToDecimalAux fuel n).map (fun c => c.toNat - 48)) = n := by
  intro fuel
  induction fuel with
  | zero =>
    intro n hn
    interval_cases n
    rfl
  | succ f ih =>
    intro n hn
    cases n with
    | zero => rfl
    | succ m =>
      rw [natToDecimalAux, List.map_append, List.map_singleton, digitsVal_append]
      have hq : (m + 1) / 10 ≤ f := by
        have := Nat.div_lt_self (Nat.succ_pos m) (by norm_num : 1 < 10)
        omega
      rw [ih _ hq, digitChar_toNat_sub _ (Nat.mod_lt _ (by norm_num))]
      omega

theorem natToDecimalAux_ne_nil (n : Nat) (h1 : 0 < n) :
    ∀ fuel, n ≤ fuel → natToDecimalAux fuel n ≠ [] := by
  intro fuel h2
  cases fuel with
  | zero => omega
  | succ f =>
    cases n with
    | zero => omega
    | succ m => rw [natToDecimalAux]; simp

theorem stripWs_digit (c : Char) (rest : List Char) (h : isDecDigit c = true) :
    stripWs (c :: rest) = c :: rest := by
  have hb : 48 ≤ c.toNat ∧ c.toNat ≤ 57 := by simpa [isDecDigit] using h
  rw [stripWs, if_neg]
  rintro (h1 | h1 | h1 | h1) <;> (subst h1; revert hb; decide)

theorem splitSign_digit (c : Char) (rest : List Char) (h : isDecDigit c = true) :
    splitSign (c :: rest) = (1, c :: rest) := by
  have hb : 48 ≤ c.toNat ∧ c.toNat ≤ 57 := by simpa [isDecDigit] using h
  rw [splitSign, if_neg, if_neg]
  · intro h1; subst h1; revert hb; decide
  · intro h1; subst h1; revert hb; decide

theorem hasHexPrefix_digits :
    ∀ cs : List Char, cs.all isDecDigit = true → hasHexPrefix cs = false := by
  intro cs h
  match cs with
  | [] => rfl
  | [c] => rfl
  | c0 :: c1 :: rest =>
    simp only [List.all_cons, Bool.and_eq_true] at h
    have hb : 48 ≤ c1.toNat ∧ c1.toNat ≤ 57 := by simpa [isDecDigit] using h.2.1
    have hx : c1 ≠ 'x' := by intro h1; subst h1; revert hb; decide
    have hX : c1 ≠ 'X' := by intro h1; subst h1; revert hb; decide
    simp [hasHexPrefix, hx, hX]

/-- Parsing the decimal numeral of `n` with radix-unspecified `parseInt`
gives back `n`. -/
theorem jsParseInt_natToDecimal (n : Nat) :
    jsParseInt none (natToDecimal n) = some (n : Int) := by
  by_cases h0 : n = 0
  · subst h0; rfl
  · rw [natToDecimal, if_neg h0]
    have hall : (natToDecimalAux n n).all isDecDigit = true :=
      natToDecimalAux_all_digits n n
    have hne : natToDecimalAux n n ≠ [] :=
      natToDecimalAux_ne_nil n (Nat.pos_of_ne_zero h0) n le_rfl
    obtain ⟨c, rest, hcons⟩ : ∃ c rest, natToDecimalAux n n = c :: rest := by
      cases hc : natToDecimalAux n n with
      | nil => exact absurd hc hne
      | cons c rest => exact ⟨c, rest, rfl⟩
    have hc : isDecDigit c = true := by
      rw [hcons, List.all_cons, Bool.and_eq_true] at hall
      exact hall.1
    have hall' : (natToDecimalAux n n).all isDecDigit = true :=
      natToDecimalAux_all_digits n n
    show jsParseInt none (String.mk (natToDecimalAux n n)) = some (n : Int)
    rw [jsParseInt]
    simp only [hcons, stripWs_digit c rest hc, splitSign_digit c rest hc]
    rw [← hcons]
    simp only [effRadixAndDigits, hasHexPrefix_digits _ hall', if_false,
      Bool.false_eq_true]
    rw [if_neg (by norm_num), takeDigits10_of_digits _ hall',
      if_neg (by simp [hcons])]
    rw [natToDecimalAux_val n n le_rfl]
    simp

/-- On a numeral without a hex prefix, radix-unspecified `parseInt`
agrees with an explicit radix of 10. -/
theorem jsParseInt_radix10_agree (v : String) (h : hexPrefixFree v = true) :
    jsParseInt none v = jsParseInt (some 10) v := by
  have h' : hasHexPrefix (splitSign (stripWs v.data)).2 = false := by
    simpa [hexPrefixFree] using h
  rw [jsParseInt, jsParseInt]
  simp only [effRadixAndDigits, h', if_false, Bool.false_eq_true]

theorem natToDecimal_ne_empty (n : Nat) : natToDecimal n ≠ "" := by
  by_cases h0 : n = 0
  · subst h0; decide
  · rw [natToDecimal, if_neg h0]
    intro h
    exact natToDecimalAux_ne_nil n (Nat.pos_of_ne_zero h0) n le_rfl
      (congrArg String.data h)

/-! ## C5: pagination defaults -/

/-- C5 counterexample: with `page=0x10` in the URL, the pagination state
becomes 16 (`parseInt` without a radix reads the `0x` prefix as
hexadecimal), while the base-10 parse of `0x10` is 0. -/
theorem fetchItems_pagination_counterexample :
    (fetchItemsComplete ⟨none, none, [("page", "0x10")]⟩
        ⟨1, true, [], ⟨none, none, 0⟩, true⟩ 1 ⟨some 0, []⟩).pagination.current =
      some 16 ∧
    jsParseInt (some 10) "0x10" = some 0 ∧
    ((some 16 : Option Int) ≠ some 0) := by
  refine ⟨by decide, by decide, by decide⟩

/-- C5 amended: when a fresh response is applied, a missing `page`
parameter yields current page 1 and a missing `pageSize` parameter
yields `config.defaultPagesize` (or 10 when unconfigured); a present
non-empty parameter is parsed by radix-unspecified `parseInt`, which is
the base-10 parse except that an empty value falls back to the default
(`||` treats it as falsy) and a `0x`/`0X`-prefixed value is parsed as
hexadecimal. -/
theorem fetchItems_pagination_defaults
    (ctx : FetchCtx) (st : FetchState) (reqId : Nat) (resp : ListResponse)
    (hm : st.mounted = true) (hr : reqId = st.requestId) :
    (paramsGet ctx.search "page" = none →
      (fetchItemsComplete ctx st reqId resp).pagination.current = some 1) ∧
    (paramsGet ctx.search "pageSize" = none →
      (fetchItemsComplete ctx st reqId resp).pagination.pageSize =
        some (Int.ofNat (ctx.defaultPagesize.getD 10))) ∧
    (∀ v, paramsGet ctx.search "page" = some v → v ≠ "" →
      (fetchItemsComplete ctx st reqId resp).pagination.current =
        jsParseInt none v ∧
      (hexPrefixFree v = true → jsParseInt none v = jsParseInt (some 10) v)) ∧
    (∀ v, paramsGet ctx.search "pageSize" = some v → v ≠ "" →
      (fetchItemsComplete ctx st reqId resp).pagination.pageSize =
        jsParseInt none v ∧
      (hexPrefixFree v = true → jsParseInt none v = jsParseInt (some 10) v)) := by
  have hguard : ¬ (st.mounted = false ∨ reqId ≠ st.requestId) := by
    simp [hm, hr]
  have hcur : (fetchItemsComplete ctx st reqId resp).pagination.current =
      jsParseInt none (pageSource ctx.search) := by
    rw [fetchItemsComplete, if_neg hguard]
  have hps : (fetchItemsComplete ctx st reqId resp).pagination.pageSize =
      jsParseInt none (pageSizeSource ctx.defaultPagesize ctx.search) := by
    rw [fetchItemsComplete, if_neg hguard]
  refine ⟨?_, ?_, ?_, ?_⟩
  · intro hnone
    rw [hcur, pageSource, hnone]
    decide
  · intro hnone
    rw [hps, pageSizeSource, hnone]
    cases hdp : ctx.defaultPagesize with
    | none => decide
    | some d =>
      simpa [jsOrString, natToDecimal_ne_empty d] using jsParseInt_natToDecimal d
  · intro v hv hne
    refine ⟨?_, fun hfree => jsParseInt_radix10_agree v hfree⟩
    rw [hcur, pageSource, hv]
    simp [jsOrString, hne]
  · intro v hv hne
    refine ⟨?_, fun hfree => jsParseInt_radix10_agree v hfree⟩
    rw [hps, pageSizeSource, hv]
    simp [jsOrString, hne]

/-- C5 witness: with `page=3` and no `pageSize`, a fresh response yields
current page 3 and page size 10. -/
theorem fetchItems_pagination_defaults_witness :
    (fetchItemsComplete ⟨none, none, [("page", "3")]⟩
        ⟨1, true, [], ⟨none, none, 0⟩, true⟩ 1 ⟨some 0, []⟩).pagination.current =
      some 3 ∧
    (fetchItemsComplete ⟨none, none, [("page", "3")]⟩
        ⟨1, true, [], ⟨none, none, 0⟩, true⟩ 1 ⟨some 0, []⟩).pagination.pageSize =
      some 10 := by
  have h := fetchItems_pagination_defaults ⟨none, none, [("page", "3")]⟩
    ⟨1, true, [], ⟨none, none, 0⟩, true⟩ 1 ⟨some 0, []⟩ rfl rfl
  refine ⟨((h.2.2.1 "3" rfl (by decide)).1).trans (by decide), (h.2.1 rfl).trans rfl⟩

/-! ## String-suffix lemmas for the filter parameter keys -/

theorem strEndsWith_append (k s1 s2 : String)
    (hlen : s2.data.length = s1.data.length) :
    strEndsWith (k ++ s1) s2 = (s1.data.reverse == s2.data.reverse) := by
  unfold strEndsWith
  have hd : (k ++ s1).data = k.data ++ s1.data := rfl
  rw [hd, List.reverse_append, hlen, ← List.length_reverse s1.data, List.take_left]

theorem endsWith_min_append (k : String) :
    strEndsWith (k ++ "[min]") "[min]" = true := by
  rw [strEndsWith_append k "[min]" "[min]" rfl]
  simp

theorem endsWith_max_append (k : String) :
    strEndsWith (k ++ "[max]") "[max]" = true := by
  rw [strEndsWith_append k "[max]" "[max]" rfl]
  simp

theorem endsWith_min_of_max (k : String) :
    strEndsWith (k ++ "[max]") "[min]" = false := by
  rw [strEndsWith_append k "[max]" "[min]" rfl]
  decide

theorem endsWith_max_of_min (k : String) :
    strEndsWith (k ++ "[min]") "[max]" = false := by
  rw [strEndsWith_append k "[min]" "[max]" rfl]
  decide

theorem dropSuffixLen_append (k s : String) :
    dropSuffixLen (k ++ s) s.data.length = k := by
  unfold dropSuffixLen
  have hd : (k ++ s).data = k.data ++ s.data := rfl
  rw [hd, List.length_append,
    (by omega : k.data.length + s.data.length - s.data.length = k.data.length),
    List.take_left]

theorem strAppend_right_cancel {k1 k2 s : String} (h : k1 ++ s = k2 ++ s) :
    k1 = k2 := by
  have hd : k1.data ++ s.data = k2.data ++ s.data := congrArg String.data h
  exact String.ext (List.append_cancel_right hd)

theorem append_min_ne_max (k1 k2 : String) : k1 ++ "[min]" ≠ k2 ++ "[max]" := by
  intro h
  have h1 := endsWith_min_append k1
  rw [h, endsWith_min_of_max k2] at h1
  exact absurd h1 (by decide)

theorem ne_min_append_of_good (k1 k2 : String) (hg : goodFilterKey k1 = true) :
    k1 ≠ k2 ++ "[min]" := by
  intro h
  have h1 := endsWith_min_append k2
  rw [← h] at h1
  simp only [goodFilterKey, Bool.and_eq_true, Bool.not_eq_true'] at hg
  rw [hg.1.2] at h1
  exact absurd h1 (by decide)

theorem ne_max_append_of_good (k1 k2 : String) (hg : goodFilterKey k1 = true) :
    k1 ≠ k2 ++ "[max]" := by
  intro h
  have h1 := endsWith_max_append k2
  rw [← h] at h1
  simp only [goodFilterKey, Bool.and_eq_true, Bool.not_eq_true'] at hg
  rw [hg.2] at h1
  exact absurd h1 (by decide)

theorem min_append_ne_lit (k r : String) (hr : strEndsWith r "[min]" = false) :
    k ++ "[min]" ≠ r := by
  intro h
  have h1 := endsWith_min_append k
  rw [h, hr] at h1
  exact absurd h1 (by decide)

theorem max_append_ne_lit (k r : String) (hr : strEndsWith r "[max]" = false) :
    k ++ "[max]" ≠ r := by
  intro h
  have h1 := endsWith_max_append k
  rw [h, hr] at h1
  exact absurd h1 (by decide)

/-! ## Branch lemmas for the filter parser -/

theorem parseFilterStep_plain (fs : Filters) (k v : String)
    (hk : goodFilterKey k = true) :
    parseFilterStep fs (k, v) = assocSet fs k ((jsSplitComma v).map some) := by
  simp only [goodFilterKey, Bool.and_eq_true, Bool.not_eq_true',
    beq_eq_false_iff_ne, ne_eq] at hk
  obtain ⟨⟨⟨⟨⟨h1, h2⟩, h3⟩, h4⟩, h5⟩, h6⟩ := hk
  simp [parseFilterStep, h1, h2, h3, h4, h5, h6]

theorem parseFilterStep_min (fs : Filters) (k v : String) :
    parseFilterStep fs (k ++ "[min]", v) = setRangeSlot fs k 0 v := by
  have h1 := min_append_ne_lit k "page" (by decide)
  have h2 := min_append_ne_lit k "pageSize" (by decide)
  have h3 := min_append_ne_lit k "sort" (by decide)
  have h4 := min_append_ne_lit k "order" (by decide)
  have hD := dropSuffixLen_append k "[min]"
  rw [(by rfl : ("[min]" : String).data.length = 5)] at hD
  simp [parseFilterStep, h1, h2, h3, h4, endsWith_min_append k, hD]

theorem parseFilterStep_max (fs : Filters) (k v : String) :
    parseFilterStep fs (k ++ "[max]", v) = setRangeSlot fs k 1 v := by
  have h1 := max_append_ne_lit k "page" (by decide)
  have h2 := max_append_ne_lit k "pageSize" (by decide)
  have h3 := max_append_ne_lit k "sort" (by decide)
  have h4 := max_append_ne_lit k "order" (by decide)
  have hD := dropSuffixLen_append k "[max]"
  rw [(by rfl : ("[max]" : String).data.length = 5)] at hD
  simp [parseFilterStep, h1, h2, h3, h4, endsWith_min_of_max k,
    endsWith_max_append k, hD]

/-! ## `split(',')` inverts `join(',')` on comma-free parts -/

theorem splitSepAux_no_sep : ∀ (x rest acc : List Char), ',' ∉ x →
    splitSepAux ',' (x ++ rest) acc = splitSepAux ',' rest (x.reverse ++ acc) := by
  intro x
  induction x with
  | nil => intro rest acc _; simp
  | cons c x' ih =>
    intro rest acc h
    rw [List.cons_append, splitSepAux,
      if_neg (by intro hc; subst hc; exact h (List.mem_cons_self _ _)),
      ih rest (c :: acc) (fun hm => h (List.mem_cons_of_mem c hm))]
    simp

theorem splitSepAux_sep (rest acc : List Char) :
    splitSepAux ',' (',' :: rest) acc = acc.reverse :: splitSepAux ',' rest [] := by
  rw [splitSepAux, if_pos rfl]

theorem splitSepAux_join : ∀ (l : List (List Char)), l ≠ [] →
    (∀ x ∈ l, ',' ∉ x) →
    splitSepAux ',' (joinSepAux [','] l) [] = l := by
  intro l
  induction l with
  | nil => intro h; exact absurd rfl h
  | cons x t ih =>
    intro _ hall
    cases t with
    | nil =>
      rw [(by rfl : joinSepAux [','] [x] = x)]
      rw [(List.append_nil x).symm, splitSepAux_no_sep x [] []
        (hall x (List.mem_cons_self _ _))]
      simp [splitSepAux]
    | cons y t' =>
      rw [(by rfl : joinSepAux [','] (x :: y :: t') =
        x ++ [','] ++ joinSepAux [','] (y :: t')), List.append_assoc,
        splitSepAux_no_sep x (([','] : List Char) ++ joinSepAux [','] (y :: t')) []
          (hall x (List.mem_cons_self _ _)),
        List.singleton_append, splitSepAux_sep]
      rw [ih (by simp) (fun z hz => hall z (List.mem_cons_of_mem x hz))]
      simp

theorem jsSplitComma_jsJoinSep (vs : List String) (hne : vs ≠ [])
    (hc : ∀ v ∈ vs, ',' ∉ v.data) :
    jsSplitComma (jsJoinSep "," vs) = vs := by
  show (splitSepAux ',' (joinSepAux [','] (vs.map String.data)) []).map
      (fun l => String.mk l) = vs
  rw [splitSepAux_join (vs.map String.data) (by simpa using hne)
    (by intro x hx; obtain ⟨v, hv, rfl⟩ := List.mem_map.mp hx; exact hc v hv)]
  rw [List.map_map]
  have hcomp : ∀ v ∈ vs, ((fun l => String.mk l) ∘ String.data) v = id v :=
    fun v _ => rfl
  rw [List.map_congr_left hcomp, List.map_id]

/-! ## Association-list lemmas for fresh keys -/

theorem assocSet_append_fresh {α : Type} (l : List (String × α)) (k : String)
    (v : α) (h : ∀ p ∈ l, p.1 ≠ k) : assocSet l k v = l ++ [(k, v)] := by
  unfold assocSet
  rw [if_neg]
  intro hany
  rw [List.any_eq_true] at hany
  obtain ⟨p, hp, hpk⟩ := hany
  exact h p hp (by simpa using hpk)

theorem assocGet_none_of_fresh {α : Type} (l : List (String × α)) (k : String)
    (h : ∀ p ∈ l, p.1 ≠ k) : assocGet l k = none := by
  unfold assocGet
  rw [List.find?_eq_none.mpr]
  · rfl
  · intro p hp
    simpa using h p hp

theorem assocGet_append_self {α : Type} (l : List (String × α)) (k : String)
    (v : α) (h : ∀ p ∈ l, p.1 ≠ k) : assocGet (l ++ [(k, v)]) k = some v := by
  induction l with
  | nil => simp [assocGet]
  | cons p rest ih =>
    rw [List.cons_append]
    unfold assocGet at *
    have hb : (p.1 == k) = false := by simp [h p (List.mem_cons_self _ _)]
    rw [List.find?_cons, hb]
    exact ih (fun q hq => h q (List.mem_cons_of_mem p hq))

theorem assocSet_append_replace {α : Type} (l : List (String × α)) (k : String)
    (v w : α) (h : ∀ p ∈ l, p.1 ≠ k) :
    assocSet (l ++ [(k, v)]) k w = l ++ [(k, w)] := by
  unfold assocSet
  rw [if_pos (by simp)]
  rw [List.map_append]
  congr 1
  · calc l.map (fun p => if p.1 == k then (k, w) else p)
        = l.map id := by
          apply List.map_congr_left
          intro p hp
          simp [h p hp]
      _ = l := List.map_id l
  · simp

theorem paramsSet_append_fresh (ps : Params) (k v : String)
    (h : freshKey ps k) : paramsSet ps k v = ps ++ [(k, v)] := by
  induction ps with
  | nil => rfl
  | cons p rest ih =>
    rw [paramsSet, if_neg (h p (List.mem_cons_self _ _)), List.cons_append]
    exact congrArg (p :: ·) (ih (fun q hq => h q (List.mem_cons_of_mem p hq)))

/-! ## The derived query keys of distinct filter entries are distinct -/

theorem filterParamsOf_keys (kv : String × List String) :
    ∀ a ∈ (filterParamsOf kv).map Prod.fst,
      a = kv.1 ∨ a = kv.1 ++ "[min]" ∨ a = kv.1 ++ "[max]" := by
  obtain ⟨k, vs⟩ := kv
  rcases vs with _ | ⟨v0, _ | ⟨v1, _ | ⟨v2, rest⟩⟩⟩ <;>
    intro a ha <;> simp [filterParamsOf] at ha
  · exact Or.inl ha
  · rcases ha with h | h
    · exact Or.inr (Or.inl h)
    · exact Or.inr (Or.inr h)
  · exact Or.inl ha

theorem derivedKeys_disjoint (k1 k2 : String) (vs1 vs2 : List String)
    (hne : k1 ≠ k2) (hg1 : goodFilterKey k1 = true)
    (hg2 : goodFilterKey k2 = true) :
    ∀ a ∈ (filterParamsOf (k1, vs1)).map Prod.fst,
    ∀ b ∈ (filterParamsOf (k2, vs2)).map Prod.fst, a ≠ b := by
  intro a ha b hb
  rcases filterParamsOf_keys (k1, vs1) a ha with h1 | h1 | h1 <;>
    rcases filterParamsOf_keys (k2, vs2) b hb with h2 | h2 | h2 <;>
    rw [h1, h2]
  · exact hne
  · exact ne_min_append_of_good k1 k2 hg1
  · exact ne_max_append_of_good k1 k2 hg1
  · exact Ne.symm (ne_min_append_of_good k2 k1 hg2)
  · exact fun h => hne (strAppend_right_cancel h)
  · exact append_min_ne_max k1 k2
  · exact Ne.symm (ne_max_append_of_good k2 k1 hg2)
  · exact Ne.symm (append_min_ne_max k2 k1)
  · exact fun h => hne (strAppend_right_cancel h)

theorem derived_ne_reserved (k : String) (vs : List String)
    (hg : goodFilterKey k = true) :
    ∀ dk ∈ (filterParamsOf (k, vs)).map Prod.fst,
      dk ≠ "page" ∧ dk ≠ "pageSize" ∧ dk ≠ "sort" ∧ dk ≠ "order" := by
  intro dk hdk
  rcases filterParamsOf_keys (k, vs) dk hdk with h | h | h <;> subst h
  · simp only [goodFilterKey, Bool.and_eq_true, Bool.not_eq_true',
      beq_eq_false_iff_ne, ne_eq] at hg
    exact ⟨hg.1.1.1.1.1, hg.1.1.1.1.2, hg.1.1.1.2, hg.1.1.2⟩
  · exact ⟨min_append_ne_lit k "page" (by decide),
      min_append_ne_lit k "pageSize" (by decide),
      min_append_ne_lit k "sort" (by decide),
      min_append_ne_lit k "order" (by decide)⟩
  · exact ⟨max_append_ne_lit k "page" (by decide),
      max_append_ne_lit k "pageSize" (by decide),
      max_append_ne_lit k "sort" (by decide),
      max_append_ne_lit k "order" (by decide)⟩

theorem freshKey_basePairs (pageSize : Nat) (sorting : SortingState)
    (dk : String)
    (h : dk ≠ "page" ∧ dk ≠ "pageSize" ∧ dk ≠ "sort" ∧ dk ≠ "order") :
    freshKey (basePairs pageSize sorting) dk := by
  intro p hp
  unfold basePairs at hp
  cases hs : sorting.field with
  | none =>
    rw [hs] at hp
    simp only [List.append_nil, List.mem_cons, List.not_mem_nil, or_false] at hp
    rcases hp with hp | hp <;> subst hp
    · exact Ne.symm h.1
    · exact Ne.symm h.2.1
  | some fld =>
    rw [hs] at hp
    simp only [List.mem_append, List.mem_cons, List.not_mem_nil, or_false] at hp
    rcases hp with (hp | hp) | (hp | hp) <;> subst hp
    · exact Ne.symm h.1
    · exact Ne.symm h.2.1
    · exact Ne.symm h.2.2.1
    · exact Ne.symm h.2.2.2

/-! ## The encoder writes the base pairs then one block per filter -/

theorem foldl_applyFilterParam :
    ∀ (f : List (String × List String)) (ps : Params),
    (∀ kv ∈ f, goodFilterKey kv.1 = true) →
    (f.map Prod.fst).Nodup →
    (∀ kv ∈ f, ∀ dk ∈ (filterParamsOf kv).map Prod.fst, freshKey ps dk) →
    List.foldl applyFilterParam ps f = ps ++ f.flatMap filterParamsOf := by
  intro f
  induction f with
  | nil => intro ps _ _ _; simp
  | cons hd tl ih =>
    intro ps hgood hnodup hfresh
    obtain ⟨k, vs⟩ := hd
    have hgk : goodFilterKey k = true := hgood (k, vs) (List.mem_cons_self _ _)
    rw [List.foldl_cons]
    have hstep : applyFilterParam ps (k, vs) = ps ++ filterParamsOf (k, vs) := by
      rcases vs with _ | ⟨v0, _ | ⟨v1, _ | ⟨v2, rest⟩⟩⟩
      · simp [applyFilterParam, filterParamsOf]
      · show paramsSet ps k (jsJoinSep "," [v0]) = ps ++ filterParamsOf (k, [v0])
        rw [paramsSet_append_fresh ps k _ (hfresh (k, [v0])
          (List.mem_cons_self _ _) k (by simp [filterParamsOf]))]
        rfl
      · show paramsSet (paramsSet ps (k ++ "[min]") v0) (k ++ "[max]") v1 =
          ps ++ filterParamsOf (k, [v0, v1])
        rw [paramsSet_append_fresh ps (k ++ "[min]") v0
          (hfresh (k, [v0, v1]) (List.mem_cons_self _ _) (k ++ "[min]")
            (by simp [filterParamsOf]))]
        rw [paramsSet_append_fresh]
        · rw [List.append_assoc]
          rfl
        · intro p hp
          rcases List.mem_append.mp hp with hp | hp
          · exact hfresh (k, [v0, v1]) (List.mem_cons_self _ _) (k ++ "[max]")
              (by simp [filterParamsOf]) p hp
          · simp only [List.mem_singleton] at hp
            subst hp
            exact append_min_ne_max k k
      · show paramsSet ps k (jsJoinSep "," (v0 :: v1 :: v2 :: rest)) =
          ps ++ filterParamsOf (k, v0 :: v1 :: v2 :: rest)
        rw [paramsSet_append_fresh ps k _ (hfresh (k, v0 :: v1 :: v2 :: rest)
          (List.mem_cons_self _ _) k (by simp [filterParamsOf]))]
        rfl
    rw [hstep]
    have hnodup2 : (k :: tl.map Prod.fst).Nodup := hnodup
    have hnodup' := List.nodup_cons.mp hnodup2
    rw [ih (ps ++ filterParamsOf (k, vs))
      (fun kv hkv => hgood kv (List.mem_cons_of_mem _ hkv))
      hnodup'.2
      ?_]
    · rw [List.flatMap_cons, List.append_assoc]
    · intro kv hkv dk hdk p hp
      rcases List.mem_append.mp hp with hp | hp
      · exact hfresh kv (List.mem_cons_of_mem _ hkv) dk hdk p hp
      · have hp1 : p.1 ∈ (filterParamsOf (k, vs)).map Prod.fst :=
          List.mem_map_of_mem Prod.fst hp
        have hkne : k ≠ kv.1 := by
          intro he
          exact hnodup'.1 (he ▸ List.mem_map_of_mem Prod.fst hkv)
        have hgkv : goodFilterKey kv.1 = true :=
          hgood kv (List.mem_cons_of_mem _ hkv)
        exact derivedKeys_disjoint k kv.1 vs kv.2 hkne hgk hgkv p.1 hp1 dk hdk

theorem handleFilterChange_eq_flat (pageSize : Nat) (sorting : SortingState)
    (f : List (String × List String))
    (hgood : ∀ kv ∈ f, goodFilterKey kv.1 = true)
    (hnodup : (f.map Prod.fst).Nodup) :
    handleFilterChange pageSize sorting f =
      basePairs pageSize sorting ++ f.flatMap filterParamsOf := by
  have hbase : handleFilterChange pageSize sorting f =
      List.foldl applyFilterParam (basePairs pageSize sorting) f := by
    cases hs : sorting.field with
    | none => rw [handleFilterChange, basePairs, hs]; rfl
    | some fld => rw [handleFilterChange, basePairs, hs]; rfl
  rw [hbase]
  exact foldl_applyFilterParam f (basePairs pageSize sorting) hgood hnodup
    (fun kv hkv dk hdk => freshKey_basePairs pageSize sorting dk
      (by
        obtain ⟨k, vs⟩ := kv
        exact derived_ne_reserved k vs (hgood (k, vs) hkv) dk hdk))

/-! ## The parser folds one filter block into one map entry -/

theorem parse_flatMap :
    ∀ (f : List (String × List String)) (acc : Filters),
    (∀ kv ∈ f, goodFilterKey kv.1 = true ∧ goodFilterVal kv.2 = true) →
    (f.map Prod.fst).Nodup →
    (∀ kv ∈ f, ∀ p ∈ acc, p.1 ≠ kv.1) →
    List.foldl parseFilterStep acc (f.flatMap filterParamsOf) =
      acc ++ f.map (fun kv => (kv.1, kv.2.map some)) := by
  intro f
  induction f with
  | nil => intro acc _ _ _; simp
  | cons hd tl ih =>
    intro acc hgood hnodup hfresh
    obtain ⟨k, vs⟩ := hd
    obtain ⟨hgk, hgv⟩ := hgood (k, vs) (List.mem_cons_self _ _)
    have hkfresh : ∀ p ∈ acc, p.1 ≠ k :=
      fun p hp => hfresh (k, vs) (List.mem_cons_self _ _) p hp
    rw [List.flatMap_cons, List.foldl_append]
    have hstep : List.foldl parseFilterStep acc (filterParamsOf (k, vs)) =
        acc ++ [(k, vs.map some)] := by
      rcases vs with _ | ⟨v0, _ | ⟨v1, _ | ⟨v2, rest⟩⟩⟩
      · simp [goodFilterVal] at hgv
      · have hcf : ',' ∉ v0.data := by
          simpa [goodFilterVal] using hgv
        show parseFilterStep acc (k, jsJoinSep "," [v0]) =
          acc ++ [(k, [v0].map some)]
        rw [parseFilterStep_plain acc k _ hgk]
        rw [jsSplitComma_jsJoinSep [v0] (by simp)
          (by intro v hv; rw [List.mem_singleton] at hv; subst hv; exact hcf)]
        exact assocSet_append_fresh acc k _ hkfresh
      · show List.foldl parseFilterStep acc
            [(k ++ "[min]", v0), (k ++ "[max]", v1)] =
          acc ++ [(k, [some v0, some v1])]
        rw [List.foldl_cons, List.foldl_cons, List.foldl_nil,
          parseFilterStep_min acc k v0, setRangeSlot,
          assocGet_none_of_fresh acc k hkfresh]
        have hJ0 : jsArraySet ((none : Option FilterArr).getD []) 0 v0 =
            [some v0] := rfl
        rw [hJ0, assocSet_append_fresh acc k [some v0] hkfresh,
          parseFilterStep_max _ k v1, setRangeSlot,
          assocGet_append_self acc k [some v0] hkfresh]
        have hJ1 : jsArraySet ((some [some v0] : Option FilterArr).getD []) 1 v1 =
            [some v0, some v1] := rfl
        rw [hJ1]
        exact assocSet_append_replace acc k _ _ hkfresh
      · have hcf : ∀ v ∈ v0 :: v1 :: v2 :: rest, ',' ∉ v.data := by
          have hlen : ((v0 :: v1 :: v2 :: rest).length == 2) = false := by
            simp
          rw [goodFilterVal, hlen] at hgv
          simp only [Bool.false_or, Bool.and_eq_true, List.all_eq_true,
            decide_eq_true_eq] at hgv
          exact hgv.2
        show parseFilterStep acc (k, jsJoinSep "," (v0 :: v1 :: v2 :: rest)) =
          acc ++ [(k, (v0 :: v1 :: v2 :: rest).map some)]
        rw [parseFilterStep_plain acc k _ hgk]
        rw [jsSplitComma_jsJoinSep (v0 :: v1 :: v2 :: rest) (by simp) hcf]
        exact assocSet_append_fresh acc k _ hkfresh
    rw [hstep]
    have hnodup2 : (k :: tl.map Prod.fst).Nodup := hnodup
    have hnodup' := List.nodup_cons.mp hnodup2
    rw [ih (acc ++ [(k, vs.map some)])
      (fun kv hkv => hgood kv (List.mem_cons_of_mem _ hkv))
      hnodup'.2
      ?_]
    · simp
    · intro kv hkv p hp
      rcases List.mem_append.mp hp with hp | hp
      · exact hfresh kv (List.mem_cons_of_mem _ hkv) p hp
      · rw [List.mem_singleton] at hp
        subst hp
        intro he
        have hek : k = kv.1 := he
        exact hnodup'.1 (by rw [hek]; exact List.mem_map_of_mem Prod.fst hkv)

theorem parse_basePairs (pageSize : Nat) (sorting : SortingState) :
    List.foldl parseFilterStep [] (basePairs pageSize sorting) = [] := by
  cases hs : sorting.field with
  | none => rw [basePairs, hs]; rfl
  | some fld => rw [basePairs, hs]; rfl

/-! ## C1: URL round-trip of filter state -/

/-- C1 counterexample: a single-element filter value containing a comma
is comma-joined by `handleFilterChange` and split back into two values
by the URL parser, so the round-trip does not restore the filter map. -/
theorem filter_url_roundTrip_counterexample :
    parseFiltersFromURL
        (handleFilterChange 10 ⟨none, .ascend⟩ [("color", ["a,b"])]) ≠
      [("color", [some "a,b"])] := by
  decide

/-- C1 amended: the round-trip restores the filter map for every filter
map whose keys are pairwise distinct, are none of the reserved parameter
names (`page`, `pageSize`, `sort`, `order`) and do not themselves end in
`[min]` / `[max]`, and whose value lists are non-empty and comma-free
except for two-element range lists (whose values travel unsplit in the
`k[min]` / `k[max]` parameters). -/
theorem filter_url_roundTrip (pageSize : Nat) (sorting : SortingState)
    (f : List (String × List String))
    (hgood : ∀ kv ∈ f, goodFilterKey kv.1 = true ∧ goodFilterVal kv.2 = true)
    (hnodup : (f.map Prod.fst).Nodup) :
    parseFiltersFromURL (handleFilterChange pageSize sorting f) =
      f.map (fun kv => (kv.1, kv.2.map some)) := by
  rw [handleFilterChange_eq_flat pageSize sorting f
    (fun kv h => (hgood kv h).1) hnodup]
  rw [parseFiltersFromURL, List.foldl_append, parse_basePairs]
  exact parse_flatMap f [] hgood hnodup
    (fun kv _ p hp => absurd hp (List.not_mem_nil p))

/-- C1 witness: a three-element list filter, a two-element range filter
and active sorting all round-trip through the URL. -/
theorem filter_url_roundTrip_witness :
    parseFiltersFromURL (handleFilterChange 10 ⟨some "name", .descend⟩
        [("color", ["red", "blue", "green"]), ("price", ["10", "99"])]) =
      [("color", [some "red", some "blue", some "green"]),
       ("price", [some "10", some "99"])] := by
  have h := filter_url_roundTrip 10 ⟨some "name", .descend⟩
    [("color", ["red", "blue", "green"]), ("price", ["10", "99"])]
    (by decide) (by decide)
  exact h.trans (by decide)

end ConsumerTemplate
